import Mathlib

/-!
# Verification of the kiren-chess-dashboard opponent-cache engine

Shallow embedding of the aggregation/cache engine of the repository:

* `src/src/opponent_cache.py` (`OpponentCacheManager`, `OpponentInfo`): name
  normalization, per-opponent aggregation, staleness detection, refresh,
  statistics and search;
* `src/comprehensive_opponent_cache.py` (`DetailedOpponentProfile`,
  `create_comprehensive_opponent_profiles`): the richer profile builder with
  upset detection and the subject-perspective win rate;
* `src/opponent_lookup.py` (`search_opponents`): the CLI search with its
  relevance ranking.

Python `dict`s (insertion ordered) are modelled as association lists,
Python `float` as `Rat` (the arithmetic the code performs is exact on the
rationals it manipulates), file-system timestamps as `Int`, and the content
of a JSON source file as an `Option (List Tournament)` (`none` = the file is
missing, unreadable, or not a JSON list).  Exceptions caught by the code and
turned into boolean results are modelled by an explicit `writeOk` flag.
-/

/-! ## Python string primitives (ASCII fragment used by the repository) -/

/-- Whitespace characters recognised by Python's `str.strip()` / `\s`
(ASCII fragment). -/
def isSpaceChar (c : Char) : Bool :=
  c = ' ' || c = '\t' || c = '\n' || c = '\r' || c = '\x0b' || c = '\x0c'

/-- `[A-Za-z]`, the character class of `re.search(r'[A-Za-z]', name)`. -/
def isAsciiLetter (c : Char) : Bool :=
  ('A' ≤ c && c ≤ 'Z') || ('a' ≤ c && c ≤ 'z')

/-- The punctuation set of `name.strip('.,;:*')`. -/
def isPunctChar (c : Char) : Bool :=
  c = '.' || c = ',' || c = ';' || c = ':' || c = '*'

/-- Drop the longest suffix of `l` all of whose characters satisfy `p`. -/
def dropTrailing (p : Char → Bool) (l : List Char) : List Char :=
  (l.reverse.dropWhile p).reverse

/-- Python `s.strip()`: remove leading and trailing whitespace. -/
def pyStrip (s : String) : String :=
  String.mk (dropTrailing isSpaceChar (s.data.dropWhile isSpaceChar))

/-- Python `s.upper()` (ASCII fragment): uppercase each character. -/
def pyUpper (s : String) : String :=
  String.mk (s.data.map Char.toUpper)

/-- Python `s.lower()` (ASCII fragment): lowercase each character. -/
def pyLower (s : String) : String :=
  String.mk (s.data.map Char.toLower)

/-- Lexicographic comparison of character lists by code point. -/
def listLt : List Char → List Char → Bool
  | [], [] => false
  | [], _ :: _ => true
  | _ :: _, [] => false
  | a :: as, b :: bs => if a < b then true else if b < a then false else listLt as bs

/-- Python `s < t` on strings: lexicographic by code point (the repository
compares ISO-8601 date strings this way). -/
def pyLt (s t : String) : Bool :=
  listLt s.data t.data

/-- Collapse each run of consecutive spaces to a single space. -/
def squeezeSpaces : List Char → List Char
  | [] => []
  | [c] => [c]
  | a :: b :: rest =>
    if a = ' ' && b = ' ' then squeezeSpaces (b :: rest)
    else a :: squeezeSpaces (b :: rest)

/-- Python `re.sub(r'\s+', ' ', s).strip()`: every maximal whitespace run
becomes one space, then leading/trailing whitespace is removed. -/
def collapseWhitespace (s : String) : String :=
  String.mk (dropTrailing (· = ' ')
    ((squeezeSpaces (s.data.map fun c => if isSpaceChar c then ' ' else c)).dropWhile (· = ' ')))

/-- Contiguous-sublist test on character lists (Python `needle in hay`). -/
def listContains (needle : List Char) : List Char → Bool
  | [] => needle.isEmpty
  | c :: t => needle.isPrefixOf (c :: t) || listContains needle t

/-- Python `needle in hay` on strings. -/
def strContains (hay needle : String) : Bool :=
  listContains needle.data hay.data

/-! ## Association-list model of Python `dict` (insertion ordered) -/

/-- `d.get(k)` / `d[k]` on an insertion-ordered dictionary. -/
def findKey {α : Type} : List (String × α) → String → Option α
  | [], _ => none
  | (k, v) :: rest, n => if k = n then some v else findKey rest n

/-- `d[k] = v`: overwrite in place if the key exists, else append (Python
dicts keep insertion order). -/
def setKey {α : Type} : List (String × α) → String → α → List (String × α)
  | [], n, v => [(n, v)]
  | (k, w) :: rest, n, v =>
    if k = n then (n, v) :: rest else (k, w) :: setKey rest n v

/-! ## Shared raw-record shapes (one entry of a tournament JSON file) -/

/-- One opponent record of a tournament (`opponent_data` with the `.get`
defaults already applied: `name` default `''`, `rating` default `0`,
`result` default `''`, `round` default `0`). -/
structure OpponentData where
  name : String
  rating : Int
  result : String
  round : Int
deriving DecidableEq

/-- One tournament record (`name` default `'Unknown Tournament'`, `date`
default `''`, `rating_before` default `0` — the latter is read only by the
comprehensive builder). -/
structure Tournament where
  name : String
  date : String
  rating_before : Int
  opponents : List OpponentData
deriving DecidableEq

namespace OpponentCache

/-! ## `src/src/opponent_cache.py` -/

/-- The dataclass `OpponentInfo`.  `avg_rating` (a Python float that only
ever holds `sum/len` of integer lists) is modelled as `Rat`. -/
structure OpponentInfo where
  name : String
  ratings_faced : List Int
  results_against : List String
  tournaments_met : List String
  rounds_played : List Int
  last_faced : String
  total_games : Nat
  wins_against : Nat
  losses_against : Nat
  draws_against : Nat
  avg_rating : Rat
deriving DecidableEq

/-- The `invalid_patterns` list of `clean_opponent_name`. -/
def invalid_patterns : List String :=
  [ "Click on a Section Name",
    "The ratings shown on this page",
    "Section(s),",
    "Players",
    "not official published ratings",
    "may change from time to time",
    "Using them for pairing purposes",
    "should only be done if this has been advertised",
    "advance publicity and is announced" ]

/-- `OpponentCacheManager.clean_opponent_name`. -/
def clean_opponent_name (name : String) : String :=
  if name = "" then ""
  else if invalid_patterns.any fun pattern =>
      strContains (pyLower name) (pyLower pattern) then ""
  else
    let cleaned := collapseWhitespace name
    if cleaned.length < 3 || cleaned.length > 50 then ""
    else if !(cleaned.data.any isAsciiLetter) then ""
    else String.mk (dropTrailing isPunctChar (cleaned.data.dropWhile isPunctChar))

/-- A fresh `OpponentInfo` as initialised when a name is first seen. -/
def newOpponentInfo (name : String) : OpponentInfo :=
  { name := name
    ratings_faced := []
    results_against := []
    tournaments_met := []
    rounds_played := []
    last_faced := ""
    total_games := 0
    wins_against := 0
    losses_against := 0
    draws_against := 0
    avg_rating := 0 }

/-- The per-encounter mutation block of `extract_opponents_from_tournaments`
(append the encounter, update `last_faced`, bump the stats, recompute the
running mean). -/
def updateInfo (info : OpponentInfo) (tournament_name tournament_date : String)
    (od : OpponentData) : OpponentInfo :=
  let result := pyUpper od.result
  let info := { info with
    ratings_faced := info.ratings_faced ++ [od.rating]
    results_against := info.results_against ++ [result]
    tournaments_met := info.tournaments_met ++ [tournament_name]
    rounds_played := info.rounds_played ++ [od.round]
    last_faced :=
      if pyLt info.last_faced tournament_date then tournament_date else info.last_faced
    total_games := info.total_games + 1 }
  let info :=
    if result = "W" then { info with wins_against := info.wins_against + 1 }
    else if result = "L" then { info with losses_against := info.losses_against + 1 }
    else if result = "D" then { info with draws_against := info.draws_against + 1 }
    else info
  if info.ratings_faced ≠ [] then
    { info with avg_rating :=
        ((info.ratings_faced.map fun r => (r : Rat)).sum) / (info.ratings_faced.length : Rat) }
  else info

/-- The in-memory `opponents_cache` dictionary. -/
abbrev Cache := List (String × OpponentInfo)

/-- Body of the inner loop of `extract_opponents_from_tournaments`: strip the
raw name, normalize it, skip the encounter if either step yields the empty
string, otherwise create-or-update the profile. -/
def processOpponent (cache : Cache) (tournament_name tournament_date : String)
    (od : OpponentData) : Cache :=
  let name0 := pyStrip od.name
  if name0 = "" then cache
  else
    let name := clean_opponent_name name0
    if name = "" then cache
    else
      let info := (findKey cache name).getD (newOpponentInfo name)
      setKey cache name (updateInfo info tournament_name tournament_date od)

/-- One raw encounter together with the tournament it came from. -/
structure Encounter where
  tournament_name : String
  tournament_date : String
  data : OpponentData
deriving DecidableEq

/-- Process a flat sequence of encounters (each intermediate state of the
aggregation is `processEncounters` of a prefix). -/
def processEncounters (cache : Cache) (encs : List Encounter) : Cache :=
  encs.foldl (fun c e => processOpponent c e.tournament_name e.tournament_date e.data) cache

/-- `OpponentCacheManager.extract_opponents_from_tournaments`. -/
def extract_opponents_from_tournaments (cache : Cache) (tournaments : List Tournament) : Cache :=
  tournaments.foldl
    (fun c t => t.opponents.foldl (fun c od => processOpponent c t.name t.date od) c)
    cache

/-- The fixed `source_files` list of `OpponentCacheManager.__init__`. -/
def source_files : List String :=
  [ "data/kiren_real_multiyear.json",
    "data/real_kiren_tournaments.json",
    "data/kiren_multiyear_tournaments.json",
    "data/kiren_tournaments.json" ]

/-- `OpponentCacheManager.needs_refresh`.  `last_updated` is the parsed
stored timestamp (`none` when no timestamp is stored) and `mtime` gives the
modification time of each existing file (`none` = `os.path.exists` is
false). -/
def needs_refresh (last_updated : Option Int) (mtime : String → Option Int) : Bool :=
  match last_updated with
  | none => true
  | some cache_time =>
    source_files.any fun source_file =>
      match mtime source_file with
      | some file_mtime => decide (cache_time < file_mtime)
      | none => false

/-- The mutable state of an `OpponentCacheManager`: the in-memory
`opponents_cache` and the stored `last_updated` timestamp. -/
structure CacheState where
  opponents : Cache
  last_updated : Option Int
deriving DecidableEq

/-- `OpponentCacheManager.save_cache`.  A failing file write (any caught
exception) is the `writeOk = false` case: the method returns `False` and
mutates nothing; on success it stores the fresh timestamp `now` and returns
`True`.  The opponents mapping is never modified either way. -/
def save_cache (st : CacheState) (now : Int) (writeOk : Bool) : CacheState × Bool :=
  if writeOk then ({ st with last_updated := some now }, true)
  else (st, false)

/-- The source-file reading loop of `refresh_cache`: each declared file that
exists, parses, and holds a JSON list contributes its tournaments
(`srcs f = none` models a missing/unreadable/non-list file, which is
skipped). -/
def load_all_tournaments (srcs : String → Option (List Tournament)) : List Tournament :=
  (source_files.map fun source_file => (srcs source_file).getD []).flatten

/-- `OpponentCacheManager.refresh_cache`: clear the in-memory mapping,
re-aggregate every loadable tournament from scratch, and save; report
`False` when nothing could be loaded or the save failed. -/
def refresh_cache (st : CacheState) (srcs : String → Option (List Tournament))
    (now : Int) (writeOk : Bool) : CacheState × Bool :=
  let all_tournaments := load_all_tournaments srcs
  let st := { st with opponents := ([] : Cache) }
  if all_tournaments ≠ [] then
    save_cache { st with
      opponents := extract_opponents_from_tournaments st.opponents all_tournaments } now writeOk
  else (st, false)

/-- `OpponentCacheManager.get_all_opponents`: a read accessor that
rebuilds first when the cache is stale. -/
def get_all_opponents (st : CacheState) (mtime : String → Option Int)
    (srcs : String → Option (List Tournament)) (now : Int) (writeOk : Bool) :
    CacheState × Cache :=
  if needs_refresh st.last_updated mtime then
    let st1 := (refresh_cache st srcs now writeOk).1
    (st1, st1.opponents)
  else (st, st.opponents)

/-- The `rating_ranges` dictionary of `get_statistics`. -/
structure RatingDistribution where
  r2400_plus : Nat
  r2200_2399 : Nat
  r2000_2199 : Nat
  r1800_1999 : Nat
  under_1800 : Nat
deriving DecidableEq

/-- The summary dictionary returned by `get_statistics` on a non-empty
cache. -/
structure Statistics where
  total_opponents : Nat
  total_games : Nat
  total_wins : Nat
  total_losses : Nat
  total_draws : Nat
  win_percentage : Rat
  avg_opponent_rating : Rat
  rating_distribution : RatingDistribution
  last_updated : Option Int
deriving DecidableEq

/-- `OpponentCacheManager.get_statistics` on the current cache contents
(the refresh-if-stale step that precedes it is `needs_refresh` /
`refresh_cache` above).  The Python method returns the empty dict `{}` on an
empty cache, modelled as `none`. -/
def get_statistics (cache : Cache) (last_updated : Option Int) : Option Statistics :=
  if cache = [] then none
  else
    let infos := cache.map Prod.snd
    let total_opponents := infos.length
    let total_games := (infos.map fun info => info.total_games).sum
    let total_wins := (infos.map fun info => info.wins_against).sum
    let total_losses := (infos.map fun info => info.losses_against).sum
    let total_draws := (infos.map fun info => info.draws_against).sum
    some
      { total_opponents := total_opponents
        total_games := total_games
        total_wins := total_wins
        total_losses := total_losses
        total_draws := total_draws
        win_percentage :=
          if total_games > 0 then (total_wins : Rat) / (total_games : Rat) * 100 else 0
        avg_opponent_rating :=
          ((infos.map fun info => info.avg_rating).sum) / (total_opponents : Rat)
        rating_distribution :=
          { r2400_plus := infos.countP fun info => 2400 ≤ info.avg_rating
            r2200_2399 := infos.countP fun info => 2200 ≤ info.avg_rating ∧ info.avg_rating < 2400
            r2000_2199 := infos.countP fun info => 2000 ≤ info.avg_rating ∧ info.avg_rating < 2200
            r1800_1999 := infos.countP fun info => 1800 ≤ info.avg_rating ∧ info.avg_rating < 2000
            under_1800 := infos.countP fun info => info.avg_rating < 1800 }
        last_updated := last_updated }

/-- Descending order on `avg_rating`: the `key=lambda x: x.avg_rating,
reverse=True` comparison of `search_opponents`. -/
def ratingGe (a b : OpponentInfo) : Prop := b.avg_rating ≤ a.avg_rating

instance : DecidableRel ratingGe := fun a b =>
  inferInstanceAs (Decidable (b.avg_rating ≤ a.avg_rating))

instance : IsTotal OpponentInfo ratingGe :=
  ⟨fun a b => le_total b.avg_rating a.avg_rating⟩

instance : IsTrans OpponentInfo ratingGe :=
  ⟨fun _ _ _ h1 h2 => le_trans h2 h1⟩

/-- `OpponentCacheManager.search_opponents`: keep the profiles whose name
contains the upper-cased term, then stable-sort by descending `avg_rating`
(Python's `sorted` is a stable sort; `insertionSort` with a total preorder
is the same stable sort). -/
def search_opponents (cache : Cache) (search_term : String) : List OpponentInfo :=
  let term := pyUpper search_term
  let results := (cache.map Prod.snd).filter fun info =>
    strContains (pyUpper info.name) term
  List.insertionSort ratingGe results

end OpponentCache

namespace Comprehensive

/-! ## `src/comprehensive_opponent_cache.py` -/

/-- The title list of `extract_title_from_name`. -/
def titles : List String :=
  ["GM", "IM", "FM", "WGM", "WIM", "WFM", "EXPERT", "MASTER", "CLASS A"]

/-- `extract_title_from_name`: the first title `t` (in list order) with
`name.upper().startswith(t + ' ')` is split off; the remainder
`name[len(t):].strip()` becomes the name. -/
def extract_title_from_name (name : String) : String × Option String :=
  match titles.find? fun title => List.isPrefixOf (title ++ " ").data (pyUpper name).data with
  | some title => (pyStrip (String.mk (name.data.drop title.length)), some title)
  | none => (name, none)

/-- The module-level `clean_opponent_name` of
`comprehensive_opponent_cache.py`: identical to the cache manager's version
except that the upper length bound is 60 instead of 50. -/
def clean_opponent_name (name : String) : String :=
  if name = "" then ""
  else if OpponentCache.invalid_patterns.any
      fun pattern => strContains (pyLower name) (pyLower pattern) then ""
  else
    let cleaned := collapseWhitespace name
    if cleaned.length < 3 || cleaned.length > 60 then ""
    else if !(cleaned.data.any isAsciiLetter) then ""
    else String.mk (dropTrailing isPunctChar (cleaned.data.dropWhile isPunctChar))

/-- The dataclass `DetailedOpponentProfile`.  `encounter_span_days` (derived
by `datetime.strptime` date arithmetic, relevant to no claim) is not
modelled; every other field is. -/
structure DetailedOpponentProfile where
  name : String
  uscf_id : Option String
  title : Option String
  ratings_faced : List Int
  avg_rating : Rat
  highest_rating : Int
  lowest_rating : Int
  total_encounters : Nat
  wins_against_kiren : Nat
  losses_against_kiren : Nat
  draws_against_kiren : Nat
  kiren_win_rate : Rat
  tournaments_met : List String
  dates_faced : List String
  rounds_played : List Int
  results_history : List String
  kiren_rating_when_faced : List Int
  rating_difference_avg : Rat
  upset_victories : Nat
  expected_losses : Nat
  first_encounter : String
  last_encounter : String
  colors_played : List String
  opening_patterns : List String
deriving DecidableEq

/-- A fresh `DetailedOpponentProfile` as initialised on first sight. -/
def newProfile (name : String) (title : Option String) : DetailedOpponentProfile :=
  { name := name
    uscf_id := none
    title := title
    ratings_faced := []
    avg_rating := 0
    highest_rating := 0
    lowest_rating := 9999
    total_encounters := 0
    wins_against_kiren := 0
    losses_against_kiren := 0
    draws_against_kiren := 0
    kiren_win_rate := 0
    tournaments_met := []
    dates_faced := []
    rounds_played := []
    results_history := []
    kiren_rating_when_faced := []
    rating_difference_avg := 0
    upset_victories := 0
    expected_losses := 0
    first_encounter := ""
    last_encounter := ""
    colors_played := []
    opening_patterns := [] }

/-- The per-encounter mutation block of
`create_comprehensive_opponent_profiles` (result codes are from the
subject's perspective, the counters from the opponent's: `'W'` = the subject
won = a loss for the opponent). -/
def updateProfile (profile : DetailedOpponentProfile)
    (tournament_name tournament_date : String) (kiren_rating_before : Int)
    (od : OpponentData) (title : Option String) : DetailedOpponentProfile :=
  let result := pyUpper od.result
  let profile := { profile with
    ratings_faced := profile.ratings_faced ++ [od.rating]
    tournaments_met := profile.tournaments_met ++ [tournament_name]
    dates_faced := profile.dates_faced ++ [tournament_date]
    rounds_played := profile.rounds_played ++ [od.round]
    results_history := profile.results_history ++ [result]
    kiren_rating_when_faced := profile.kiren_rating_when_faced ++ [kiren_rating_before]
    total_encounters := profile.total_encounters + 1 }
  let profile :=
    if result = "W" then
      { profile with losses_against_kiren := profile.losses_against_kiren + 1 }
    else if result = "L" then
      { profile with wins_against_kiren := profile.wins_against_kiren + 1 }
    else if result = "D" then
      { profile with draws_against_kiren := profile.draws_against_kiren + 1 }
    else profile
  let profile :=
    if profile.first_encounter = "" || pyLt tournament_date profile.first_encounter then
      { profile with first_encounter := tournament_date }
    else profile
  let profile :=
    if profile.last_encounter = "" || pyLt profile.last_encounter tournament_date then
      { profile with last_encounter := tournament_date }
    else profile
  match title with
  | some t =>
    if profile.title.getD "" = "" || (profile.title.getD "").length < t.length then
      { profile with title := some t }
    else profile
  | none => profile

/-- The in-memory `opponent_profiles` dictionary. -/
abbrev ProfileMap := List (String × DetailedOpponentProfile)

/-- Body of the inner loop of `create_comprehensive_opponent_profiles`:
strip, clean, split off a title, skip on an empty normalized name, then
create-or-update the profile. -/
def processOpponent (profiles : ProfileMap) (tournament_name tournament_date : String)
    (kiren_rating_before : Int) (od : OpponentData) : ProfileMap :=
  let raw_name := pyStrip od.name
  if raw_name = "" then profiles
  else
    let cleaned := clean_opponent_name raw_name
    if cleaned = "" then profiles
    else
      let nt := extract_title_from_name cleaned
      let profile := (findKey profiles nt.1).getD (newProfile nt.1 nt.2)
      setKey profiles nt.1
        (updateProfile profile tournament_name tournament_date kiren_rating_before od nt.2)

/-- The accumulation phase of `create_comprehensive_opponent_profiles`
(the double loop over tournaments and their opponent records). -/
def accumulateProfiles (tournaments : List Tournament) : ProfileMap :=
  tournaments.foldl
    (fun profiles t => t.opponents.foldl
      (fun profiles od => processOpponent profiles t.name t.date t.rating_before od)
      profiles)
    []

/-- The body of the upset/expected-loss counting loop of the
derived-statistics pass (`for i, result in enumerate(profile.results_history)`,
guarding that the subject's and the opponent's rating at index `i` are both
recorded). -/
def upsetStep (pr : DetailedOpponentProfile) (ir : Nat × String) :
    DetailedOpponentProfile :=
  if ir.1 < pr.kiren_rating_when_faced.length ∧ ir.1 < pr.ratings_faced.length then
    let kiren_rating := pr.kiren_rating_when_faced.getD ir.1 0
    let opp_rating := pr.ratings_faced.getD ir.1 0
    if ir.2 = "W" ∧ kiren_rating < opp_rating then
      { pr with upset_victories := pr.upset_victories + 1 }
    else if ir.2 = "L" ∧ opp_rating < kiren_rating then
      { pr with expected_losses := pr.expected_losses + 1 }
    else pr
  else pr

/-- The derived-statistics pass of `create_comprehensive_opponent_profiles`
run on one profile: mean/max/min rating, the subject's win rate, the average
rating difference, and the upset/expected-loss counting loop over
`enumerate(results_history)`. -/
def finalizeProfile (profile : DetailedOpponentProfile) : DetailedOpponentProfile :=
  let profile :=
    if profile.ratings_faced ≠ [] then
      { profile with
        avg_rating :=
          ((profile.ratings_faced.map fun r => (r : Rat)).sum) /
            (profile.ratings_faced.length : Rat)
        highest_rating := (profile.ratings_faced.max?).getD profile.highest_rating
        lowest_rating := (profile.ratings_faced.min?).getD profile.lowest_rating }
    else profile
  let profile :=
    if profile.total_encounters > 0 then
      { profile with kiren_win_rate :=
          ((profile.losses_against_kiren : Rat) / (profile.total_encounters : Rat)) * 100 }
    else profile
  let profile :=
    if profile.kiren_rating_when_faced ≠ [] ∧ profile.ratings_faced ≠ [] then
      let rating_diffs :=
        (profile.kiren_rating_when_faced.zip profile.ratings_faced).map fun p => p.1 - p.2
      { profile with rating_difference_avg :=
          ((rating_diffs.map fun d => (d : Rat)).sum) / (rating_diffs.length : Rat) }
    else profile
  profile.results_history.enum.foldl upsetStep profile

/-- `create_comprehensive_opponent_profiles`: accumulate every encounter,
then run the derived-statistics pass over every profile. -/
def create_comprehensive_opponent_profiles (tournaments : List Tournament) : ProfileMap :=
  (accumulateProfiles tournaments).map fun nv => (nv.1, finalizeProfile nv.2)

end Comprehensive

namespace OpponentLookup

/-! ## `src/opponent_lookup.py` -/

/-- One entry of the `matches` list built by the CLI `search_opponents`. -/
structure SearchMatch where
  name : String
  profile : Comprehensive.DetailedOpponentProfile
  relevance : Rat
deriving DecidableEq

/-- Descending lexicographic order on `(relevance, avg_rating)`: the
`key=lambda x: (x['relevance'], x['profile']['avg_rating']), reverse=True`
comparison. -/
def relLex (a b : SearchMatch) : Prop :=
  b.relevance < a.relevance ∨
    (b.relevance = a.relevance ∧ b.profile.avg_rating ≤ a.profile.avg_rating)

instance : DecidableRel relLex := fun a b =>
  inferInstanceAs (Decidable (b.relevance < a.relevance ∨
    (b.relevance = a.relevance ∧ b.profile.avg_rating ≤ a.profile.avg_rating)))

instance : IsTotal SearchMatch relLex := by
  refine ⟨fun a b => ?_⟩
  rcases lt_trichotomy a.relevance b.relevance with h | h | h
  · exact Or.inr (Or.inl h)
  · rcases le_total b.profile.avg_rating a.profile.avg_rating with h2 | h2
    · exact Or.inl (Or.inr ⟨h.symm, h2⟩)
    · exact Or.inr (Or.inr ⟨h, h2⟩)
  · exact Or.inl (Or.inl h)

instance : IsTrans SearchMatch relLex := by
  refine ⟨fun a b c h1 h2 => ?_⟩
  rcases h1 with h1 | ⟨e1, r1⟩
  · rcases h2 with h2 | ⟨e2, r2⟩
    · exact Or.inl (h2.trans h1)
    · exact Or.inl (e2 ▸ h1)
  · rcases h2 with h2 | ⟨e2, r2⟩
    · exact Or.inl (e1 ▸ h2)
    · exact Or.inr ⟨e2.trans e1, r2.trans r1⟩

/-- The CLI `search_opponents` of `opponent_lookup.py`: substring-filter the
cached profiles, tag each match with relevance `1.0` (exact case-insensitive
full-name match) or `0.5`, stable-sort by descending
`(relevance, avg_rating)`, and keep the first `limit` entries. -/
def search_opponents (cache_opponents : Comprehensive.ProfileMap) (query : String)
    (limit : Nat) : List SearchMatch :=
  let query_upper := pyUpper query
  let matchList := cache_opponents.filterMap fun nv =>
    if strContains (pyUpper nv.1) query_upper then
      some { name := nv.1, profile := nv.2,
             relevance := if pyUpper nv.1 = query_upper then 1 else 1/2 }
    else none
  (List.insertionSort relLex matchList).take limit

end OpponentLookup

/-! ## Aggregation invariants (verification predicates) -/

namespace OpponentCache

/-- The outcome counters of a profile agree with its recorded result
history. -/
def countsOk (info : OpponentInfo) : Prop :=
  info.total_games = info.results_against.length ∧
  info.wins_against = info.results_against.countP (fun r => r = "W") ∧
  info.losses_against = info.results_against.countP (fun r => r = "L") ∧
  info.draws_against = info.results_against.countP (fun r => r = "D")

/-- Full per-entry invariant: counters agree with the history, at least one
encounter is recorded, and `avg_rating` is the arithmetic mean of
`ratings_faced`. -/
def entryOk (info : OpponentInfo) : Prop :=
  countsOk info ∧ info.ratings_faced ≠ [] ∧
  info.avg_rating =
    ((info.ratings_faced.map fun r => (r : Rat)).sum) / (info.ratings_faced.length : Rat)

/-- Every profile stored in the cache satisfies the per-entry invariant. -/
def cacheOk (cache : Cache) : Prop := ∀ q ∈ cache, entryOk q.2

end OpponentCache

namespace Comprehensive

/-- Verification predicate: counters that only the derived-statistics pass
touches are still zero, and at least one encounter has been recorded. -/
def accOk (p : DetailedOpponentProfile) : Prop :=
  p.upset_victories = 0 ∧ p.expected_losses = 0 ∧ 0 < p.total_encounters

/-- Every accumulated profile satisfies `accOk`. -/
def profilesOk (m : ProfileMap) : Prop := ∀ q ∈ m, accOk q.2

end Comprehensive

/-- The concrete profile the comprehensive builder produces for the C7
witness tournament (subject rated 1800 beats a 2000-rated opponent). -/
def bobStoneProfile : Comprehensive.DetailedOpponentProfile :=
  { name := "Bob Stone", uscf_id := none, title := none,
    ratings_faced := [2000], avg_rating := 2000, highest_rating := 2000,
    lowest_rating := 2000, total_encounters := 1, wins_against_kiren := 0,
    losses_against_kiren := 1, draws_against_kiren := 0,
    kiren_win_rate := 100, tournaments_met := ["T1"],
    dates_faced := ["2024-03-01"], rounds_played := [1],
    results_history := ["W"], kiren_rating_when_faced := [1800],
    rating_difference_avg := -200, upset_victories := 1,
    expected_losses := 0, first_encounter := "2024-03-01",
    last_encounter := "2024-03-01", colors_played := [],
    opening_patterns := [] }


/-- One-profile comprehensive cache used to witness the amended C6. -/
def giaHallCache : Comprehensive.ProfileMap :=
  [("Gia Hall", Comprehensive.newProfile "Gia Hall" none)]

/-- The exact CLI search match on `giaHallCache`. -/
def giaHallMatch : OpponentLookup.SearchMatch :=
  { name := "Gia Hall", profile := Comprehensive.newProfile "Gia Hall" none,
    relevance := 1 }

/-! ## Theorems -/

theorem findKey_mem {α : Type} :
    ∀ {c : List (String × α)} {n : String} {v : α}, findKey c n = some v → (n, v) ∈ c := by
  intro c
  induction c with
  | nil => intro n v h; simp [findKey] at h
  | cons q rest ih =>
    obtain ⟨k, w⟩ := q
    intro n v h
    simp only [findKey] at h
    split at h
    · rename_i he
      subst he
      cases h
      exact List.mem_cons_self _ _
    · exact List.mem_cons_of_mem _ (ih h)

theorem mem_setKey {α : Type} :
    ∀ {c : List (String × α)} {n : String} {v : α} {q : String × α},
      q ∈ setKey c n v → q = (n, v) ∨ q ∈ c := by
  intro c
  induction c with
  | nil => intro n v q h; simpa [setKey] using h
  | cons p rest ih =>
    intro n v q h
    simp only [setKey] at h
    split at h
    · rcases List.mem_cons.1 h with h1 | h1
      · exact Or.inl h1
      · exact Or.inr (List.mem_cons_of_mem _ h1)
    · rcases List.mem_cons.1 h with h1 | h1
      · exact Or.inr (h1 ▸ List.mem_cons_self p rest)
      · rcases ih h1 with h2 | h2
        · exact Or.inl h2
        · exact Or.inr (List.mem_cons_of_mem _ h2)

namespace OpponentCache

theorem countsOk_newOpponentInfo (n : String) : countsOk (newOpponentInfo n) := by
  simp [countsOk, newOpponentInfo]

/-- Field-level description of one `updateInfo` step. -/
theorem updateInfo_fields (info : OpponentInfo) (tn td : String) (od : OpponentData) :
    (updateInfo info tn td od).ratings_faced = info.ratings_faced ++ [od.rating] ∧
    (updateInfo info tn td od).results_against = info.results_against ++ [pyUpper od.result] ∧
    (updateInfo info tn td od).total_games = info.total_games + 1 ∧
    (updateInfo info tn td od).wins_against
      = info.wins_against + (if pyUpper od.result = "W" then 1 else 0) ∧
    (updateInfo info tn td od).losses_against
      = info.losses_against + (if pyUpper od.result = "L" then 1 else 0) ∧
    (updateInfo info tn td od).draws_against
      = info.draws_against + (if pyUpper od.result = "D" then 1 else 0) ∧
    (updateInfo info tn td od).avg_rating
      = (((info.ratings_faced ++ [od.rating]).map fun r => (r : Rat)).sum) /
          ((info.ratings_faced ++ [od.rating]).length : Rat) := by
  by_cases hW : pyUpper od.result = "W" <;>
    by_cases hL : pyUpper od.result = "L" <;>
    by_cases hD : pyUpper od.result = "D" <;>
    simp_all [updateInfo]

theorem entryOk_updateInfo {info : OpponentInfo} (h : countsOk info)
    (tn td : String) (od : OpponentData) : entryOk (updateInfo info tn td od) := by
  obtain ⟨ht, hw, hl, hd⟩ := h
  obtain ⟨f1, f2, f3, f4, f5, f6, f7⟩ := updateInfo_fields info tn td od
  refine ⟨⟨?_, ?_, ?_, ?_⟩, ?_, ?_⟩
  · rw [f3, f2, ht]; simp
  · rw [f4, f2, hw]; simp [List.countP_append, List.countP_cons]
  · rw [f5, f2, hl]; simp [List.countP_append, List.countP_cons]
  · rw [f6, f2, hd]; simp [List.countP_append, List.countP_cons]
  · rw [f1]; simp
  · rw [f7, f1]

theorem cacheOk_processOpponent {cache : Cache} (h : cacheOk cache)
    (tn td : String) (od : OpponentData) : cacheOk (processOpponent cache tn td od) := by
  dsimp only [processOpponent]
  split_ifs with h1 h2
  · exact h
  · exact h
  · intro q hq
    rcases mem_setKey hq with rfl | hq2
    · refine entryOk_updateInfo ?_ tn td od
      cases hf : findKey cache (clean_opponent_name (pyStrip od.name)) with
      | none => simpa [hf] using countsOk_newOpponentInfo _
      | some i =>
        have := h _ (findKey_mem hf)
        simpa [hf] using this.1
    · exact h _ hq2

theorem cacheOk_processEncounters :
    ∀ (encs : List Encounter) (cache : Cache), cacheOk cache →
      cacheOk (processEncounters cache encs) := by
  intro encs
  induction encs with
  | nil => intro cache h; exact h
  | cons e rest ih =>
    intro cache h
    exact ih _ (cacheOk_processOpponent h e.tournament_name e.tournament_date e.data)

theorem cacheOk_empty : cacheOk ([] : Cache) := by
  intro q hq
  simp at hq

/-- Splitting the count of `W`/`L`/`D` results. -/
theorem countP_WLD_split (l : List String) :
    l.countP (fun r => r = "W") + l.countP (fun r => r = "L") + l.countP (fun r => r = "D")
      = l.countP (fun r => r = "W" ∨ r = "L" ∨ r = "D") := by
  induction l with
  | nil => simp
  | cons a l ih =>
    simp only [List.countP_cons]
    by_cases hW : a = "W" <;> by_cases hL : a = "L" <;> by_cases hD : a = "D" <;>
      simp_all <;> omega

end OpponentCache

namespace OpponentCache

/-- **C1**: for every profile produced by the aggregator (at every
intermediate state, i.e. after any sequence of processed encounters starting
from the cleared cache), `wins_against + losses_against + draws_against ≤
total_games`, with equality iff every recorded (upper-cased) result code is
`W`, `L` or `D`; and an encounter with any other result code is still
appended to `ratings_faced`/`results_against` and counted in `total_games`
while incrementing no outcome counter. -/
theorem C1_outcome_counter_invariant (encs : List Encounter) (n : String)
    (info : OpponentInfo)
    (h : findKey (processEncounters ([] : Cache) encs) n = some info) :
    (info.wins_against + info.losses_against + info.draws_against ≤ info.total_games ∧
      (info.wins_against + info.losses_against + info.draws_against = info.total_games ↔
        ∀ r ∈ info.results_against, r = "W" ∨ r = "L" ∨ r = "D")) ∧
    ∀ (j : OpponentInfo) (tn td : String) (od : OpponentData),
      pyUpper od.result ≠ "W" → pyUpper od.result ≠ "L" → pyUpper od.result ≠ "D" →
      (updateInfo j tn td od).ratings_faced = j.ratings_faced ++ [od.rating] ∧
      (updateInfo j tn td od).results_against = j.results_against ++ [pyUpper od.result] ∧
      (updateInfo j tn td od).total_games = j.total_games + 1 ∧
      (updateInfo j tn td od).wins_against = j.wins_against ∧
      (updateInfo j tn td od).losses_against = j.losses_against ∧
      (updateInfo j tn td od).draws_against = j.draws_against := by
  have hok := cacheOk_processEncounters encs [] cacheOk_empty _ (findKey_mem h)
  obtain ⟨⟨ht, hw, hl, hd⟩, _, _⟩ := hok
  constructor
  · constructor
    · rw [ht, hw, hl, hd, countP_WLD_split]
      exact List.countP_le_length _
    · rw [ht, hw, hl, hd, countP_WLD_split, List.countP_eq_length]
      constructor
      · intro hall r hr
        simpa using hall r hr
      · intro hall r hr
        simpa using hall r hr
  · intro j tn td od hW hL hD
    obtain ⟨f1, f2, f3, f4, f5, f6, _⟩ := updateInfo_fields j tn td od
    rw [if_neg hW] at f4
    rw [if_neg hL] at f5
    rw [if_neg hD] at f6
    exact ⟨f1, f2, f3, by omega, by omega, by omega⟩

unseal Rat.add Rat.sub Rat.mul Rat.inv in
/-- Witness for C1: a single processed encounter with result code `"x"`
(upper-cased `"X"`, outside `{W, L, D}`) yields a profile with one game and
all outcome counters zero. -/
theorem C1_witness :
    (findKey (processEncounters ([] : Cache)
        [⟨"T1", "2024-01-01", ⟨"John Doe", 1500, "x", 1⟩⟩]) "John Doe"
      = some { name := "John Doe", ratings_faced := [1500], results_against := ["X"],
               tournaments_met := ["T1"], rounds_played := [1],
               last_faced := "2024-01-01", total_games := 1, wins_against := 0,
               losses_against := 0, draws_against := 0, avg_rating := 1500 }) ∧
    ({ name := "John Doe", ratings_faced := [1500], results_against := ["X"],
       tournaments_met := ["T1"], rounds_played := [1],
       last_faced := "2024-01-01", total_games := 1, wins_against := 0,
       losses_against := 0, draws_against := 0,
       avg_rating := 1500 : OpponentInfo }.wins_against
      + ({ name := "John Doe", ratings_faced := [1500], results_against := ["X"],
           tournaments_met := ["T1"], rounds_played := [1],
           last_faced := "2024-01-01", total_games := 1, wins_against := 0,
           losses_against := 0, draws_against := 0,
           avg_rating := 1500 : OpponentInfo }).losses_against
      + ({ name := "John Doe", ratings_faced := [1500], results_against := ["X"],
           tournaments_met := ["T1"], rounds_played := [1],
           last_faced := "2024-01-01", total_games := 1, wins_against := 0,
           losses_against := 0, draws_against := 0,
           avg_rating := 1500 : OpponentInfo }).draws_against
      ≤ ({ name := "John Doe", ratings_faced := [1500], results_against := ["X"],
           tournaments_met := ["T1"], rounds_played := [1],
           last_faced := "2024-01-01", total_games := 1, wins_against := 0,
           losses_against := 0, draws_against := 0,
           avg_rating := 1500 : OpponentInfo }).total_games) := by
  have h : findKey (processEncounters ([] : Cache)
      [⟨"T1", "2024-01-01", ⟨"John Doe", 1500, "x", 1⟩⟩]) "John Doe"
      = some { name := "John Doe", ratings_faced := [1500], results_against := ["X"],
               tournaments_met := ["T1"], rounds_played := [1],
               last_faced := "2024-01-01", total_games := 1, wins_against := 0,
               losses_against := 0, draws_against := 0, avg_rating := 1500 } := by decide
  exact ⟨h, (C1_outcome_counter_invariant _ _ _ h).1.1⟩

/-- **C2**: for every profile in any state reachable during aggregation (so
in particular after every appended encounter), `ratings_faced` is non-empty
and `avg_rating` equals the arithmetic mean
`sum(ratings_faced) / len(ratings_faced)`. -/
theorem C2_running_mean (encs : List Encounter) (n : String) (info : OpponentInfo)
    (h : findKey (processEncounters ([] : Cache) encs) n = some info) :
    info.ratings_faced ≠ [] ∧
    info.avg_rating =
      ((info.ratings_faced.map fun r => (r : Rat)).sum) /
        (info.ratings_faced.length : Rat) := by
  have hok := cacheOk_processEncounters encs [] cacheOk_empty _ (findKey_mem h)
  exact ⟨hok.2.1, hok.2.2⟩

unseal Rat.add Rat.sub Rat.mul Rat.inv in
/-- Witness for C2: after two encounters at ratings 2000 and 1000 the stored
mean is 1500. -/
theorem C2_witness :
    (findKey (processEncounters ([] : Cache)
        [⟨"T1", "2024-01-01", ⟨"Jane Roe", 2000, "W", 1⟩⟩,
         ⟨"T2", "2024-02-01", ⟨"Jane Roe", 1000, "L", 2⟩⟩]) "Jane Roe"
      = some { name := "Jane Roe", ratings_faced := [2000, 1000],
               results_against := ["W", "L"], tournaments_met := ["T1", "T2"],
               rounds_played := [1, 2], last_faced := "2024-02-01",
               total_games := 2, wins_against := 1, losses_against := 1,
               draws_against := 0, avg_rating := 1500 }) ∧
    (([2000, 1000] : List Int) ≠ [] ∧
      (1500 : Rat) = ((([2000, 1000] : List Int).map fun r => (r : Rat)).sum) /
        ((([2000, 1000] : List Int)).length : Rat)) := by
  have h : findKey (processEncounters ([] : Cache)
      [⟨"T1", "2024-01-01", ⟨"Jane Roe", 2000, "W", 1⟩⟩,
       ⟨"T2", "2024-02-01", ⟨"Jane Roe", 1000, "L", 2⟩⟩]) "Jane Roe"
      = some { name := "Jane Roe", ratings_faced := [2000, 1000],
               results_against := ["W", "L"], tournaments_met := ["T1", "T2"],
               rounds_played := [1, 2], last_faced := "2024-02-01",
               total_games := 2, wins_against := 1, losses_against := 1,
               draws_against := 0, avg_rating := 1500 } := by decide
  exact ⟨h, C2_running_mean _ _ _ h⟩

end OpponentCache

theorem squeezeSpaces_sublist : ∀ l : List Char, List.Sublist (squeezeSpaces l) l
  | [] => by simp [squeezeSpaces]
  | [c] => by simp [squeezeSpaces]
  | a :: b :: rest => by
    rw [squeezeSpaces]
    split
    · exact List.Sublist.cons a (squeezeSpaces_sublist (b :: rest))
    · exact List.Sublist.cons₂ a (squeezeSpaces_sublist (b :: rest))

theorem mem_of_mem_dropTrailing {p : Char → Bool} {l : List Char} {c : Char}
    (h : c ∈ dropTrailing p l) : c ∈ l := by
  unfold dropTrailing at h
  rw [List.mem_reverse] at h
  exact List.mem_reverse.1 ((List.dropWhile_sublist p).subset h)

/-- A letter occurring in the whitespace-collapsed string occurs (as a
letter) in the original string. -/
theorem exists_letter_of_collapse {s : String}
    (h : ∃ c ∈ (collapseWhitespace s).data, isAsciiLetter c = true) :
    ∃ d ∈ s.data, isAsciiLetter d = true := by
  obtain ⟨c, hc, hl⟩ := h
  have hc1 : c ∈ dropTrailing (· = ' ')
      ((squeezeSpaces (s.data.map fun ch => if isSpaceChar ch then ' ' else ch)).dropWhile
        (· = ' ')) := hc
  have hc2 : c ∈ (squeezeSpaces (s.data.map fun ch => if isSpaceChar ch then ' ' else ch)) :=
    (List.dropWhile_sublist _).subset (mem_of_mem_dropTrailing hc1)
  have hc3 : c ∈ s.data.map fun ch => if isSpaceChar ch then ' ' else ch :=
    (squeezeSpaces_sublist _).subset hc2
  obtain ⟨d, hd, hde⟩ := List.mem_map.1 hc3
  refine ⟨d, hd, ?_⟩
  by_cases hsp : isSpaceChar d = true
  · rw [if_pos hsp] at hde
    subst hde
    simp [isAsciiLetter] at hl
  · rw [if_neg hsp] at hde
    rwa [hde]

namespace OpponentCache

/-- **C3**: `clean_opponent_name` returns the empty string for every input
that is empty, contains one of the fixed artifact substrings
case-insensitively, has length under 3 or over 50 after whitespace
collapsing and trimming, or contains no ASCII letter; and an encounter whose
(stripped) name normalizes to the empty string leaves the cache completely
unchanged. -/
theorem C3_name_rejection :
    (∀ name : String,
      (name = "" ∨
        (∃ p ∈ invalid_patterns, strContains (pyLower name) (pyLower p) = true) ∨
        (collapseWhitespace name).length < 3 ∨ 50 < (collapseWhitespace name).length ∨
        (∀ c ∈ name.data, isAsciiLetter c = false)) →
      clean_opponent_name name = "") ∧
    ∀ (cache : Cache) (tn td : String) (od : OpponentData),
      clean_opponent_name (pyStrip od.name) = "" →
      processOpponent cache tn td od = cache := by
  constructor
  · intro name h
    dsimp only [clean_opponent_name]
    split_ifs with h1 h2 h3 h4
    · rfl
    · rfl
    · rfl
    · rfl
    · exfalso
      rcases h with h | h | h | h | h
      · exact h1 h
      · apply h2
        rw [List.any_eq_true]
        obtain ⟨p, hp, hs⟩ := h
        exact ⟨p, hp, hs⟩
      · apply h3
        simp only [Bool.or_eq_true, decide_eq_true_eq]
        exact Or.inl h
      · apply h3
        simp only [Bool.or_eq_true, decide_eq_true_eq]
        exact Or.inr h
      · apply h4
        simp only [Bool.not_eq_eq_eq_not, Bool.not_true, List.any_eq_false]
        intro c hc
        by_contra hcl
        obtain ⟨d, hd, hdl⟩ :=
          exists_letter_of_collapse ⟨c, hc, by simpa using hcl⟩
        rw [h d hd] at hdl
        exact Bool.false_ne_true hdl
  · intro cache tn td od hcl
    by_cases g1 : pyStrip od.name = ""
    · simp [processOpponent, g1]
    · simp [processOpponent, g1, hcl]

/-- Witness for C3: the two-character name `"ab"` is rejected and its
encounter leaves the empty cache empty. -/
theorem C3_witness :
    clean_opponent_name "ab" = "" ∧
    processOpponent ([] : Cache) "T1" "2024-01-01" ⟨"ab", 1200, "W", 1⟩ = [] :=
  ⟨C3_name_rejection.1 "ab" (Or.inr (Or.inr (Or.inl (by decide)))),
   C3_name_rejection.2 [] "T1" "2024-01-01" ⟨"ab", 1200, "W", 1⟩ (by decide)⟩

end OpponentCache

namespace OpponentCache

/-- **C4**: `needs_refresh` is true iff no timestamp is stored or some
declared source file exists with a strictly newer modification time; its
value depends only on the modification times of the declared source files
(so touching an undeclared file never makes it true); and after a successful
rebuild, which stores the fresh timestamp `now` (no source being newer than
`now`), it is false again, so a subsequent read accessor serves the cache
without rebuilding. -/
theorem C4_staleness :
    (∀ (lu : Option Int) (mtime : String → Option Int),
      needs_refresh lu mtime = true ↔
        (lu = none ∨ ∃ t, lu = some t ∧
          ∃ f ∈ source_files, ∃ m, mtime f = some m ∧ t < m)) ∧
    (∀ (lu : Option Int) (m1 m2 : String → Option Int),
      (∀ f ∈ source_files, m1 f = m2 f) →
      needs_refresh lu m1 = needs_refresh lu m2) ∧
    (∀ (st : CacheState) (srcs : String → Option (List Tournament))
        (mtime : String → Option Int) (now now2 : Int) (ok2 : Bool),
      load_all_tournaments srcs ≠ [] →
      (∀ f ∈ source_files, ∀ m, mtime f = some m → m ≤ now) →
      (refresh_cache st srcs now true).1.last_updated = some now ∧
      needs_refresh (refresh_cache st srcs now true).1.last_updated mtime = false ∧
      get_all_opponents (refresh_cache st srcs now true).1 mtime srcs now2 ok2
        = ((refresh_cache st srcs now true).1,
           (refresh_cache st srcs now true).1.opponents)) := by
  have key : ∀ (mtime : String → Option Int) (now : Int),
      (∀ f ∈ source_files, ∀ m, mtime f = some m → m ≤ now) →
      needs_refresh (some now) mtime = false := by
    intro mtime now hmt
    simp only [needs_refresh]
    rw [List.any_eq_false]
    intro f hf
    cases hmf : mtime f with
    | none => simp
    | some m =>
      have := hmt f hf m hmf
      simp only [decide_eq_true_eq]
      omega
  refine ⟨?_, ?_, ?_⟩
  · intro lu mtime
    cases lu with
    | none => simp [needs_refresh]
    | some t =>
      simp only [needs_refresh, List.any_eq_true]
      constructor
      · rintro ⟨f, hf, hm⟩
        refine Or.inr ⟨t, rfl, f, hf, ?_⟩
        cases hmf : mtime f with
        | none => rw [hmf] at hm; simp at hm
        | some m =>
          rw [hmf] at hm
          simp only [decide_eq_true_eq] at hm
          exact ⟨m, rfl, hm⟩
      · rintro (h | ⟨t2, ht2, f, hf, m, hm, hlt⟩)
        · simp at h
        · obtain rfl : t = t2 := by injection ht2
          refine ⟨f, hf, ?_⟩
          rw [hm]
          simpa using hlt
  · intro lu m1 m2 hagree
    cases lu with
    | none => rfl
    | some t =>
      simp only [needs_refresh]
      rw [Bool.eq_iff_iff]
      simp only [List.any_eq_true]
      constructor
      · rintro ⟨f, hf, h⟩
        exact ⟨f, hf, by rw [← hagree f hf]; exact h⟩
      · rintro ⟨f, hf, h⟩
        exact ⟨f, hf, by rw [hagree f hf]; exact h⟩
  · intro st srcs mtime now now2 ok2 hload hmt
    have h1 : (refresh_cache st srcs now true).1.last_updated = some now := by
      simp [refresh_cache, save_cache, hload]
    have h2 : needs_refresh (refresh_cache st srcs now true).1.last_updated mtime = false := by
      rw [h1]
      exact key mtime now hmt
    refine ⟨h1, h2, ?_⟩
    simp [get_all_opponents, h2]

/-- Witness for C4: with a single existing declared source of modification
time 5 and a stored timestamp 3 the cache is stale; after the rebuild at
time 10 it is fresh and the read accessor leaves the state alone. -/
theorem C4_witness :
    (load_all_tournaments (fun f =>
        if f = "data/kiren_tournaments.json" then
          some [⟨"T1", "2024-01-01", 1800, [⟨"Cara Dunn", 2000, "W", 1⟩]⟩]
        else none) ≠ []) ∧
    ((fun f => if f = "data/kiren_tournaments.json" then some (5 : Int) else none)
        "data/kiren_tournaments.json" = some 5 → (5 : Int) ≤ 10) ∧
    needs_refresh
      (refresh_cache ⟨[], some 3⟩
        (fun f =>
          if f = "data/kiren_tournaments.json" then
            some [⟨"T1", "2024-01-01", 1800, [⟨"Cara Dunn", 2000, "W", 1⟩]⟩]
          else none) 10 true).1.last_updated
      (fun f => if f = "data/kiren_tournaments.json" then some (5 : Int) else none)
      = false := by
  refine ⟨by decide, fun _ => by decide, ?_⟩
  exact (C4_staleness.2.2 ⟨[], some 3⟩
    (fun f =>
      if f = "data/kiren_tournaments.json" then
        some [⟨"T1", "2024-01-01", 1800, [⟨"Cara Dunn", 2000, "W", 1⟩]⟩]
      else none)
    (fun f => if f = "data/kiren_tournaments.json" then some (5 : Int) else none)
    10 0 true (by decide)
    (by
      intro f hf m hm
      fin_cases hf <;> simp_all <;> omega)).2.1

/-- **C5**: the opponents mapping produced by `refresh_cache` does not
depend on the prior in-memory state (the refresh clears and recomputes from
scratch), hence refreshing twice in succession with unchanged sources
yields identical opponents content. -/
theorem C5_refresh_idempotent (st : CacheState)
    (srcs : String → Option (List Tournament)) (now1 now2 : Int) (ok1 ok2 : Bool) :
    (refresh_cache st srcs now1 ok1).1.opponents
      = (refresh_cache { opponents := [], last_updated := none } srcs now1 ok1).1.opponents ∧
    (refresh_cache (refresh_cache st srcs now1 ok1).1 srcs now2 ok2).1.opponents
      = (refresh_cache st srcs now1 ok1).1.opponents := by
  constructor <;>
    (simp only [refresh_cache, save_cache]; split_ifs <;> rfl)

/-- **C8**: `save_cache` reports a failed write as `False` and leaves the
whole state (in particular the in-memory opponents mapping) unchanged; a
save never modifies the opponents mapping at all; `refresh_cache` reports a
failed save as `False` while keeping the old timestamp, and reports the
absence of any loadable tournaments as `False`. -/
theorem C8_failure_reporting :
    (∀ (st : CacheState) (now : Int),
      (save_cache st now false).2 = false ∧ (save_cache st now false).1 = st) ∧
    (∀ (st : CacheState) (now : Int) (ok : Bool),
      (save_cache st now ok).1.opponents = st.opponents) ∧
    (∀ (st : CacheState) (srcs : String → Option (List Tournament)) (now : Int),
      (refresh_cache st srcs now false).2 = false ∧
      (refresh_cache st srcs now false).1.last_updated = st.last_updated) ∧
    (∀ (st : CacheState) (srcs : String → Option (List Tournament)) (now : Int) (ok : Bool),
      load_all_tournaments srcs = [] → (refresh_cache st srcs now ok).2 = false) := by
  refine ⟨?_, ?_, ?_, ?_⟩
  · intro st now
    simp [save_cache]
  · intro st now ok
    cases ok <;> simp [save_cache]
  · intro st srcs now
    simp only [refresh_cache, save_cache]
    split_ifs <;> simp_all
  · intro st srcs now ok h
    simp [refresh_cache, h]

/-- Witness for C8: with every source file missing nothing loads and the
refresh reports failure. -/
theorem C8_witness :
    load_all_tournaments (fun _ => none) = [] ∧
    (refresh_cache ⟨[], none⟩ (fun _ => none) 0 true).2 = false :=
  ⟨rfl, C8_failure_reporting.2.2.2 ⟨[], none⟩ (fun _ => none) 0 true rfl⟩

end OpponentCache

namespace OpponentCache

/-- **C10**: `get_statistics` returns the completely empty result exactly
when the cache holds no opponents; on a non-empty cache it returns the full
summary (`total_opponents`, game/outcome totals, `win_percentage` — zero
when `total_games` is zero —, `avg_opponent_rating`, the rating
distribution, and `last_updated`). -/
theorem C10_statistics (cache : Cache) (lu : Option Int) :
    (get_statistics cache lu = none ↔ cache = []) ∧
    (∀ s, get_statistics cache lu = some s →
      s.total_opponents = cache.length ∧
      s.total_games = ((cache.map Prod.snd).map fun i => i.total_games).sum ∧
      s.total_wins = ((cache.map Prod.snd).map fun i => i.wins_against).sum ∧
      s.total_losses = ((cache.map Prod.snd).map fun i => i.losses_against).sum ∧
      s.total_draws = ((cache.map Prod.snd).map fun i => i.draws_against).sum ∧
      (s.total_games = 0 → s.win_percentage = 0) ∧
      (0 < s.total_games →
        s.win_percentage = (s.total_wins : Rat) / (s.total_games : Rat) * 100) ∧
      s.avg_opponent_rating
        = (((cache.map Prod.snd).map fun i => i.avg_rating).sum) / (cache.length : Rat) ∧
      s.rating_distribution =
        { r2400_plus := (cache.map Prod.snd).countP fun i => 2400 ≤ i.avg_rating
          r2200_2399 := (cache.map Prod.snd).countP fun i =>
            2200 ≤ i.avg_rating ∧ i.avg_rating < 2400
          r2000_2199 := (cache.map Prod.snd).countP fun i =>
            2000 ≤ i.avg_rating ∧ i.avg_rating < 2200
          r1800_1999 := (cache.map Prod.snd).countP fun i =>
            1800 ≤ i.avg_rating ∧ i.avg_rating < 2000
          under_1800 := (cache.map Prod.snd).countP fun i => i.avg_rating < 1800 } ∧
      s.last_updated = lu) := by
  constructor
  · constructor
    · intro h
      by_contra hne
      simp [get_statistics, hne] at h
    · intro h
      simp [get_statistics, h]
  · intro s hs
    by_cases hne : cache = []
    · simp [get_statistics, hne] at hs
    · simp only [get_statistics, if_neg hne] at hs
      cases hs
      refine ⟨by simp, rfl, rfl, rfl, rfl, ?_, ?_, by simp, rfl, rfl⟩
      · intro h0
        dsimp only at h0 ⊢
        rw [if_neg (by omega)]
      · intro h0
        dsimp only at h0 ⊢
        rw [if_pos h0]

unseal Rat.add Rat.sub Rat.mul Rat.inv in
/-- Witness for C10: a one-opponent cache yields the full summary with a
100% win rate. -/
theorem C10_witness :
    (get_statistics
        [("Ann Bee",
          { name := "Ann Bee", ratings_faced := [2000], results_against := ["W"],
            tournaments_met := ["T1"], rounds_played := [1],
            last_faced := "2024-01-01", total_games := 1, wins_against := 1,
            losses_against := 0, draws_against := 0, avg_rating := 2000 })] none
      = some
          { total_opponents := 1, total_games := 1, total_wins := 1,
            total_losses := 0, total_draws := 0, win_percentage := 100,
            avg_opponent_rating := 2000,
            rating_distribution :=
              { r2400_plus := 0, r2200_2399 := 0, r2000_2199 := 1,
                r1800_1999 := 0, under_1800 := 0 },
            last_updated := none }) ∧
    (({ total_opponents := 1, total_games := 1, total_wins := 1,
        total_losses := 0, total_draws := 0, win_percentage := 100,
        avg_opponent_rating := 2000,
        rating_distribution :=
          { r2400_plus := 0, r2200_2399 := 0, r2000_2199 := 1,
            r1800_1999 := 0, under_1800 := 0 },
        last_updated := none } : Statistics).total_opponents
      = ([("Ann Bee",
           { name := "Ann Bee", ratings_faced := [2000], results_against := ["W"],
             tournaments_met := ["T1"], rounds_played := [1],
             last_faced := "2024-01-01", total_games := 1, wins_against := 1,
             losses_against := 0, draws_against := 0,
             avg_rating := 2000 })] : Cache).length) := by
  have h : get_statistics
      [("Ann Bee",
        { name := "Ann Bee", ratings_faced := [2000], results_against := ["W"],
          tournaments_met := ["T1"], rounds_played := [1],
          last_faced := "2024-01-01", total_games := 1, wins_against := 1,
          losses_against := 0, draws_against := 0, avg_rating := 2000 })] none
      = some
          { total_opponents := 1, total_games := 1, total_wins := 1,
            total_losses := 0, total_draws := 0, win_percentage := 100,
            avg_opponent_rating := 2000,
            rating_distribution :=
              { r2400_plus := 0, r2200_2399 := 0, r2000_2199 := 1,
                r1800_1999 := 0, under_1800 := 0 },
            last_updated := none } := by decide
  exact ⟨h, ((C10_statistics _ _).2 _ h).1⟩

end OpponentCache

namespace Comprehensive

set_option maxHeartbeats 1000000 in
theorem updateProfile_fields (p : DetailedOpponentProfile)
    (tn td : String) (kr : Int) (od : OpponentData) (title : Option String) :
    (updateProfile p tn td kr od title).ratings_faced = p.ratings_faced ++ [od.rating] ∧
    (updateProfile p tn td kr od title).results_history
      = p.results_history ++ [pyUpper od.result] ∧
    (updateProfile p tn td kr od title).kiren_rating_when_faced
      = p.kiren_rating_when_faced ++ [kr] ∧
    (updateProfile p tn td kr od title).total_encounters = p.total_encounters + 1 ∧
    (updateProfile p tn td kr od title).upset_victories = p.upset_victories ∧
    (updateProfile p tn td kr od title).expected_losses = p.expected_losses ∧
    (updateProfile p tn td kr od title).losses_against_kiren
      = p.losses_against_kiren + (if pyUpper od.result = "W" then 1 else 0) ∧
    (updateProfile p tn td kr od title).wins_against_kiren
      = p.wins_against_kiren + (if pyUpper od.result = "L" then 1 else 0) ∧
    (updateProfile p tn td kr od title).draws_against_kiren
      = p.draws_against_kiren + (if pyUpper od.result = "D" then 1 else 0) := by
  dsimp only [updateProfile]
  cases title <;>
    by_cases hW : pyUpper od.result = "W" <;>
    by_cases hL : pyUpper od.result = "L" <;>
    by_cases hD : pyUpper od.result = "D" <;>
    simp [hW, hL, hD] <;>
    split_ifs <;>
    simp_all

end Comprehensive

namespace Comprehensive

set_option maxHeartbeats 1000000 in
theorem upsetStep_fields (pr : DetailedOpponentProfile) (ir : Nat × String) :
    (upsetStep pr ir).kiren_rating_when_faced = pr.kiren_rating_when_faced ∧
    (upsetStep pr ir).ratings_faced = pr.ratings_faced ∧
    (upsetStep pr ir).results_history = pr.results_history ∧
    (upsetStep pr ir).total_encounters = pr.total_encounters ∧
    (upsetStep pr ir).losses_against_kiren = pr.losses_against_kiren ∧
    (upsetStep pr ir).kiren_win_rate = pr.kiren_win_rate ∧
    (upsetStep pr ir).wins_against_kiren = pr.wins_against_kiren ∧
    (upsetStep pr ir).draws_against_kiren = pr.draws_against_kiren ∧
    (upsetStep pr ir).upset_victories = pr.upset_victories +
      (if ir.1 < pr.kiren_rating_when_faced.length ∧ ir.1 < pr.ratings_faced.length ∧
          ir.2 = "W" ∧ pr.kiren_rating_when_faced.getD ir.1 0 < pr.ratings_faced.getD ir.1 0
        then 1 else 0) ∧
    (upsetStep pr ir).expected_losses = pr.expected_losses +
      (if ir.1 < pr.kiren_rating_when_faced.length ∧ ir.1 < pr.ratings_faced.length ∧
          ir.2 = "L" ∧ pr.ratings_faced.getD ir.1 0 < pr.kiren_rating_when_faced.getD ir.1 0
        then 1 else 0) := by
  dsimp only [upsetStep]
  split_ifs <;>
    refine ⟨rfl, rfl, rfl, rfl, rfl, rfl, rfl, rfl, ?_, ?_⟩ <;>
    first
      | omega
      | tauto

end Comprehensive

namespace Comprehensive

theorem upsetFold (l : List (Nat × String)) : ∀ pr : DetailedOpponentProfile,
    ((l.foldl upsetStep pr).kiren_rating_when_faced = pr.kiren_rating_when_faced ∧
     (l.foldl upsetStep pr).ratings_faced = pr.ratings_faced ∧
     (l.foldl upsetStep pr).results_history = pr.results_history ∧
     (l.foldl upsetStep pr).total_encounters = pr.total_encounters ∧
     (l.foldl upsetStep pr).losses_against_kiren = pr.losses_against_kiren ∧
     (l.foldl upsetStep pr).kiren_win_rate = pr.kiren_win_rate) ∧
    (l.foldl upsetStep pr).upset_victories = pr.upset_victories +
      l.countP (fun ir => decide (ir.1 < pr.kiren_rating_when_faced.length ∧
        ir.1 < pr.ratings_faced.length ∧ ir.2 = "W" ∧
        pr.kiren_rating_when_faced.getD ir.1 0 < pr.ratings_faced.getD ir.1 0)) ∧
    (l.foldl upsetStep pr).expected_losses = pr.expected_losses +
      l.countP (fun ir => decide (ir.1 < pr.kiren_rating_when_faced.length ∧
        ir.1 < pr.ratings_faced.length ∧ ir.2 = "L" ∧
        pr.ratings_faced.getD ir.1 0 < pr.kiren_rating_when_faced.getD ir.1 0)) := by
  induction l with
  | nil => intro pr; simp
  | cons ir rest ih =>
    intro pr
    obtain ⟨f1, f2, f3, f4, f5, f6, f7, f8, f9, f10⟩ := upsetStep_fields pr ir
    have IH := ih (upsetStep pr ir)
    simp only [f1, f2, f3, f4, f5, f6] at IH
    obtain ⟨⟨g1, g2, g3, g4, g5, g6⟩, g7, g8⟩ := IH
    simp only [List.foldl_cons, List.countP_cons, decide_eq_true_eq]
    refine ⟨⟨g1, g2, g3, g4, g5, g6⟩, ?_, ?_⟩
    · rw [g7, f9]
      split_ifs <;> omega
    · rw [g8, f10]
      split_ifs <;> omega

end Comprehensive

namespace Comprehensive

theorem accOk_updateProfile {p : DetailedOpponentProfile}
    (h : p.upset_victories = 0 ∧ p.expected_losses = 0)
    (tn td : String) (kr : Int) (od : OpponentData) (title : Option String) :
    accOk (updateProfile p tn td kr od title) := by
  obtain ⟨-, -, -, f4, f5, f6, -, -, -⟩ := updateProfile_fields p tn td kr od title
  exact ⟨by rw [f5, h.1], by rw [f6, h.2], by omega⟩

theorem profilesOk_processOpponent {m : ProfileMap} (h : profilesOk m)
    (tn td : String) (kr : Int) (od : OpponentData) :
    profilesOk (processOpponent m tn td kr od) := by
  dsimp only [processOpponent]
  split_ifs with h1 h2
  · exact h
  · exact h
  · intro q hq
    rcases mem_setKey hq with rfl | hq2
    · refine accOk_updateProfile ?_ tn td kr od _
      cases hf : findKey m (extract_title_from_name
          (clean_opponent_name (pyStrip od.name))).1 with
      | none => simp [hf, newProfile]
      | some i =>
        have := h _ (findKey_mem hf)
        simp only [hf, Option.getD_some]
        exact ⟨this.1, this.2.1⟩
    · exact h _ hq2

theorem profilesOk_accumulate (tournaments : List Tournament) :
    profilesOk (accumulateProfiles tournaments) := by
  have inner : ∀ (tn td : String) (kr : Int) (ods : List OpponentData) (m : ProfileMap),
      profilesOk m →
      profilesOk (ods.foldl (fun mm od => processOpponent mm tn td kr od) m) := by
    intro tn td kr ods
    induction ods with
    | nil => intro m h; exact h
    | cons od rest ih =>
      intro m h
      exact ih _ (profilesOk_processOpponent h tn td kr od)
  have outer : ∀ (ts : List Tournament) (m : ProfileMap),
      profilesOk m →
      profilesOk (ts.foldl (fun profiles t => t.opponents.foldl
        (fun profiles od => processOpponent profiles t.name t.date t.rating_before od)
        profiles) m) := by
    intro ts
    induction ts with
    | nil => intro m h; exact h
    | cons t rest ih =>
      intro m h
      exact ih _ (inner t.name t.date t.rating_before t.opponents m h)
  exact outer tournaments [] (by intro q hq; simp at hq)

end Comprehensive

theorem findKey_map {α β : Type} (f : α → β) :
    ∀ (l : List (String × α)) (n : String),
      findKey (l.map fun nv => (nv.1, f nv.2)) n = (findKey l n).map f := by
  intro l
  induction l with
  | nil => intro n; rfl
  | cons q rest ih =>
    intro n
    simp only [List.map_cons, findKey]
    split_ifs <;> simp [ih]

namespace Comprehensive

theorem finalize_aux (q p : DetailedOpponentProfile)
    (hrh : q.results_history = p.results_history)
    (hkr : q.kiren_rating_when_faced = p.kiren_rating_when_faced)
    (hrf : q.ratings_faced = p.ratings_faced)
    (hte : q.total_encounters = p.total_encounters)
    (hlo : q.losses_against_kiren = p.losses_against_kiren)
    (hup : q.upset_victories = p.upset_victories)
    (hex : q.expected_losses = p.expected_losses)
    (w : Rat) (hwr : 0 < p.total_encounters → q.kiren_win_rate = w) :
    (q.results_history.enum.foldl upsetStep q).results_history = p.results_history ∧
    (q.results_history.enum.foldl upsetStep q).kiren_rating_when_faced
      = p.kiren_rating_when_faced ∧
    (q.results_history.enum.foldl upsetStep q).ratings_faced = p.ratings_faced ∧
    (q.results_history.enum.foldl upsetStep q).total_encounters = p.total_encounters ∧
    (q.results_history.enum.foldl upsetStep q).losses_against_kiren
      = p.losses_against_kiren ∧
    (q.results_history.enum.foldl upsetStep q).upset_victories = p.upset_victories +
      p.results_history.enum.countP (fun ir =>
        decide (ir.1 < p.kiren_rating_when_faced.length ∧ ir.1 < p.ratings_faced.length ∧
          ir.2 = "W" ∧
          p.kiren_rating_when_faced.getD ir.1 0 < p.ratings_faced.getD ir.1 0)) ∧
    (q.results_history.enum.foldl upsetStep q).expected_losses = p.expected_losses +
      p.results_history.enum.countP (fun ir =>
        decide (ir.1 < p.kiren_rating_when_faced.length ∧ ir.1 < p.ratings_faced.length ∧
          ir.2 = "L" ∧
          p.ratings_faced.getD ir.1 0 < p.kiren_rating_when_faced.getD ir.1 0)) ∧
    (0 < p.total_encounters →
      (q.results_history.enum.foldl upsetStep q).kiren_win_rate = w) := by
  simp only [hrh]
  obtain ⟨⟨g1, g2, g3, g4, g5, g6⟩, g7, g8⟩ := upsetFold (p.results_history.enum) q
  simp only [hrh, hkr, hrf, hte, hlo, hup, hex] at g1 g2 g3 g4 g5 g7 g8
  exact ⟨g3, g1, g2, g4, g5, g7, g8, fun h => g6.trans (hwr h)⟩

end Comprehensive

namespace Comprehensive

set_option maxHeartbeats 1000000 in
theorem finalizeProfile_spec (p : DetailedOpponentProfile) :
    (finalizeProfile p).results_history = p.results_history ∧
    (finalizeProfile p).kiren_rating_when_faced = p.kiren_rating_when_faced ∧
    (finalizeProfile p).ratings_faced = p.ratings_faced ∧
    (finalizeProfile p).total_encounters = p.total_encounters ∧
    (finalizeProfile p).losses_against_kiren = p.losses_against_kiren ∧
    (finalizeProfile p).upset_victories = p.upset_victories +
      p.results_history.enum.countP (fun ir =>
        decide (ir.1 < p.kiren_rating_when_faced.length ∧ ir.1 < p.ratings_faced.length ∧
          ir.2 = "W" ∧
          p.kiren_rating_when_faced.getD ir.1 0 < p.ratings_faced.getD ir.1 0)) ∧
    (finalizeProfile p).expected_losses = p.expected_losses +
      p.results_history.enum.countP (fun ir =>
        decide (ir.1 < p.kiren_rating_when_faced.length ∧ ir.1 < p.ratings_faced.length ∧
          ir.2 = "L" ∧
          p.ratings_faced.getD ir.1 0 < p.kiren_rating_when_faced.getD ir.1 0)) ∧
    (0 < p.total_encounters →
      (finalizeProfile p).kiren_win_rate
        = (p.losses_against_kiren : Rat) / (p.total_encounters : Rat) * 100) := by
  dsimp only [finalizeProfile]
  by_cases hA : p.ratings_faced ≠ []
  · rw [if_pos hA]
    try dsimp only
    by_cases hB : p.total_encounters > 0
    · rw [if_pos hB]
      dsimp only
      by_cases hC : p.kiren_rating_when_faced ≠ [] ∧ p.ratings_faced ≠ []
      · rw [if_pos hC]
        try dsimp only
        apply finalize_aux <;> first | rfl | (intro h; rfl)
      · rw [if_neg hC]
        try dsimp only
        apply finalize_aux <;> first | rfl | (intro h; rfl)
    · rw [if_neg hB]
      try dsimp only
      by_cases hC : p.kiren_rating_when_faced ≠ [] ∧ p.ratings_faced ≠ []
      · rw [if_pos hC]
        try dsimp only
        apply finalize_aux <;> first | rfl | (intro h; exact absurd h hB)
      · rw [if_neg hC]
        try dsimp only
        apply finalize_aux <;> first | rfl | (intro h; exact absurd h hB)
  · rw [if_neg hA]
    try dsimp only
    by_cases hB : p.total_encounters > 0
    · rw [if_pos hB]
      dsimp only
      by_cases hC : p.kiren_rating_when_faced ≠ [] ∧ p.ratings_faced ≠ []
      · rw [if_pos hC]
        try dsimp only
        apply finalize_aux <;> first | rfl | (intro h; rfl)
      · rw [if_neg hC]
        try dsimp only
        apply finalize_aux <;> first | rfl | (intro h; rfl)
    · rw [if_neg hB]
      try dsimp only
      by_cases hC : p.kiren_rating_when_faced ≠ [] ∧ p.ratings_faced ≠ []
      · rw [if_pos hC]
        try dsimp only
        apply finalize_aux <;> first | rfl | (intro h; exact absurd h hB)
      · rw [if_neg hC]
        try dsimp only
        apply finalize_aux <;> first | rfl | (intro h; exact absurd h hB)

end Comprehensive

/-- **C7**: for every profile built by the comprehensive builder,
`upset_victories` counts exactly the encounter indices whose subject rating
is recorded (the index lies within both `kiren_rating_when_faced` and
`ratings_faced`), whose result is a subject win `"W"`, and where the
opponent's rating strictly exceeds the subject's; `expected_losses` is the
symmetric count for `"L"` with the subject's rating strictly above the
opponent's. -/
theorem C7_upset_expected_counters (ts : List Tournament) (n : String)
    (p : Comprehensive.DetailedOpponentProfile)
    (h : findKey (Comprehensive.create_comprehensive_opponent_profiles ts) n = some p) :
    p.upset_victories = p.results_history.enum.countP (fun ir =>
      decide (ir.1 < p.kiren_rating_when_faced.length ∧ ir.1 < p.ratings_faced.length ∧
        ir.2 = "W" ∧
        p.kiren_rating_when_faced.getD ir.1 0 < p.ratings_faced.getD ir.1 0)) ∧
    p.expected_losses = p.results_history.enum.countP (fun ir =>
      decide (ir.1 < p.kiren_rating_when_faced.length ∧ ir.1 < p.ratings_faced.length ∧
        ir.2 = "L" ∧
        p.ratings_faced.getD ir.1 0 < p.kiren_rating_when_faced.getD ir.1 0)) := by
  dsimp only [Comprehensive.create_comprehensive_opponent_profiles] at h
  rw [findKey_map] at h
  cases hq : findKey (Comprehensive.accumulateProfiles ts) n with
  | none => rw [hq] at h; simp at h
  | some q =>
    rw [hq] at h
    simp only [Option.map_some', Option.some.injEq] at h
    obtain rfl : p = Comprehensive.finalizeProfile q := h.symm
    obtain ⟨hu, he, ht⟩ := Comprehensive.profilesOk_accumulate ts _ (findKey_mem hq)
    dsimp only at hu he ht
    obtain ⟨s1, s2, s3, s4, s5, s6, s7, s8⟩ := Comprehensive.finalizeProfile_spec q
    constructor
    · simp only [s1, s2, s3, s6, hu, Nat.zero_add]
    · simp only [s1, s2, s3, s7, he, Nat.zero_add]

unseal Rat.add Rat.sub Rat.mul Rat.inv in
/-- Witness for C7: one encounter in which the subject (rated 1800) beat a
2000-rated opponent yields `upset_victories = 1`. -/
theorem C7_witness :
    (findKey (Comprehensive.create_comprehensive_opponent_profiles
        [⟨"T1", "2024-03-01", 1800, [⟨"Bob Stone", 2000, "w", 1⟩]⟩]) "Bob Stone"
      = some bobStoneProfile) ∧
    bobStoneProfile.upset_victories
      = bobStoneProfile.results_history.enum.countP (fun ir =>
          decide (ir.1 < bobStoneProfile.kiren_rating_when_faced.length ∧
            ir.1 < bobStoneProfile.ratings_faced.length ∧ ir.2 = "W" ∧
            bobStoneProfile.kiren_rating_when_faced.getD ir.1 0
              < bobStoneProfile.ratings_faced.getD ir.1 0)) := by
  have h : findKey (Comprehensive.create_comprehensive_opponent_profiles
      [⟨"T1", "2024-03-01", 1800, [⟨"Bob Stone", 2000, "w", 1⟩]⟩]) "Bob Stone"
      = some bobStoneProfile := by decide
  exact ⟨h, (C7_upset_expected_counters _ _ _ h).1⟩

/-- **C9**: the comprehensive builder's counters are named from the
opponent's perspective while result codes are from the subject's: a result
`"W"` (subject win) increments the opponent's `losses_against_kiren`, `"L"`
increments `wins_against_kiren`, `"D"` increments `draws_against_kiren`,
and `kiren_win_rate` is `losses_against_kiren / total_encounters * 100`. -/
theorem C9_perspective_mapping :
    (∀ (p : Comprehensive.DetailedOpponentProfile) (tn td : String) (kr : Int)
        (od : OpponentData) (title : Option String),
      (pyUpper od.result = "W" →
        (Comprehensive.updateProfile p tn td kr od title).losses_against_kiren
          = p.losses_against_kiren + 1 ∧
        (Comprehensive.updateProfile p tn td kr od title).wins_against_kiren
          = p.wins_against_kiren ∧
        (Comprehensive.updateProfile p tn td kr od title).draws_against_kiren
          = p.draws_against_kiren) ∧
      (pyUpper od.result = "L" →
        (Comprehensive.updateProfile p tn td kr od title).wins_against_kiren
          = p.wins_against_kiren + 1 ∧
        (Comprehensive.updateProfile p tn td kr od title).losses_against_kiren
          = p.losses_against_kiren ∧
        (Comprehensive.updateProfile p tn td kr od title).draws_against_kiren
          = p.draws_against_kiren) ∧
      (pyUpper od.result = "D" →
        (Comprehensive.updateProfile p tn td kr od title).draws_against_kiren
          = p.draws_against_kiren + 1 ∧
        (Comprehensive.updateProfile p tn td kr od title).wins_against_kiren
          = p.wins_against_kiren ∧
        (Comprehensive.updateProfile p tn td kr od title).losses_against_kiren
          = p.losses_against_kiren)) ∧
    (∀ (ts : List Tournament) (n : String) (p : Comprehensive.DetailedOpponentProfile),
      findKey (Comprehensive.create_comprehensive_opponent_profiles ts) n = some p →
      p.kiren_win_rate
        = (p.losses_against_kiren : Rat) / (p.total_encounters : Rat) * 100) := by
  constructor
  · intro p tn td kr od title
    obtain ⟨-, -, -, -, -, -, f7, f8, f9⟩ :=
      Comprehensive.updateProfile_fields p tn td kr od title
    refine ⟨fun hr => ?_, fun hr => ?_, fun hr => ?_⟩ <;>
      rw [hr] at f7 f8 f9 <;> simp only [] at f7 f8 f9 <;>
      refine ⟨?_, ?_, ?_⟩ <;> simp [f7, f8, f9]
  · intro ts n p h
    dsimp only [Comprehensive.create_comprehensive_opponent_profiles] at h
    rw [findKey_map] at h
    cases hq : findKey (Comprehensive.accumulateProfiles ts) n with
    | none => rw [hq] at h; simp at h
    | some q =>
      rw [hq] at h
      simp only [Option.map_some', Option.some.injEq] at h
      obtain rfl : p = Comprehensive.finalizeProfile q := h.symm
      obtain ⟨-, -, ht⟩ := Comprehensive.profilesOk_accumulate ts _ (findKey_mem hq)
      dsimp only at ht
      obtain ⟨s1, s2, s3, s4, s5, s6, s7, s8⟩ := Comprehensive.finalizeProfile_spec q
      rw [s4, s5]
      exact s8 ht

unseal Rat.add Rat.sub Rat.mul Rat.inv in
/-- Witness for C9: a subject win (raw result `"w"`) increments the fresh
opponent profile's `losses_against_kiren` from 0 to 1. -/
theorem C9_witness :
    pyUpper "w" = "W" ∧
    (Comprehensive.updateProfile (Comprehensive.newProfile "Eva Fox" none)
        "T1" "2024-01-01" 1800 ⟨"Eva Fox", 2000, "w", 1⟩ none).losses_against_kiren
      = (Comprehensive.newProfile "Eva Fox" none).losses_against_kiren + 1 :=
  ⟨by decide,
   ((C9_perspective_mapping.1 (Comprehensive.newProfile "Eva Fox" none)
      "T1" "2024-01-01" 1800 ⟨"Eva Fox", 2000, "w", 1⟩ none).1 (by decide)).1⟩

namespace OpponentCache

unseal Rat.add Rat.sub Rat.mul Rat.inv in
/-- Counterexample to C6 as stated: after aggregating two encounters, the
search term `"Ann Lee"` matches both `"Ann Lee"` (exactly, rated 1000) and
`"Ann Leeman"` (substring only, rated 2000); the cache manager's
`search_opponents` ranks the non-exact higher-rated profile first, so exact
matches are not ranked first. -/
theorem C6_counterexample :
    (search_opponents
        (processEncounters ([] : Cache)
          [⟨"T1", "2024-01-01", ⟨"Ann Lee", 1000, "W", 1⟩⟩,
           ⟨"T1", "2024-01-01", ⟨"Ann Leeman", 2000, "L", 2⟩⟩]) "Ann Lee").map
        (fun info => info.name)
      = ["Ann Leeman", "Ann Lee"] ∧
    pyUpper "Ann Lee" = pyUpper "Ann Lee" ∧
    pyUpper "Ann Leeman" ≠ pyUpper "Ann Lee" := by
  refine ⟨by decide, rfl, by decide⟩

/-- **C6** (amended): the cache manager's `search_opponents` returns exactly
the profiles whose name contains the term case-insensitively — as a list,
a permutation of the matching profiles — ordered by descending `avg_rating`
only, with no exact-match priority; the CLI `search_opponents` of
`opponent_lookup.py` is the variant that ranks exact case-insensitive
full-name matches first (relevance 1 versus 1/2) and then by descending
rating, and it returns at most `limit` entries. -/
theorem C6_search_amended :
    (∀ (cache : Cache) (term : String),
      (search_opponents cache term).Perm
        ((cache.map Prod.snd).filter fun info =>
          strContains (pyUpper info.name) (pyUpper term)) ∧
      (search_opponents cache term).Sorted ratingGe) ∧
    (∀ (cache : Comprehensive.ProfileMap) (query : String) (limit : Nat),
      (OpponentLookup.search_opponents cache query limit).length ≤ limit ∧
      (OpponentLookup.search_opponents cache query limit).Sorted OpponentLookup.relLex ∧
      ∀ m ∈ OpponentLookup.search_opponents cache query limit,
        strContains (pyUpper m.name) (pyUpper query) = true ∧
        (m.relevance = 1 ↔ pyUpper m.name = pyUpper query) ∧
        (m.relevance = 1 ∨ m.relevance = 1/2)) := by
  constructor
  · intro cache term
    exact ⟨List.perm_insertionSort ratingGe _, List.sorted_insertionSort ratingGe _⟩
  · intro cache query limit
    refine ⟨?_, ?_, ?_⟩
    · exact List.length_take_le limit _
    · exact List.Pairwise.sublist (List.take_sublist _ _)
        (List.sorted_insertionSort OpponentLookup.relLex _)
    · intro m hm
      have h1 : m ∈ List.insertionSort OpponentLookup.relLex
          (cache.filterMap fun nv =>
            if strContains (pyUpper nv.1) (pyUpper query) then
              some { name := nv.1, profile := nv.2,
                     relevance := if pyUpper nv.1 = pyUpper query then 1 else 1/2 }
            else none) := List.mem_of_mem_take hm
      have h2 := (List.perm_insertionSort OpponentLookup.relLex _).mem_iff.1 h1
      obtain ⟨nv, hnv, heq⟩ := List.mem_filterMap.1 h2
      split_ifs at heq with hc hex
      · cases heq
        exact ⟨hc, iff_of_true rfl hex, Or.inl rfl⟩
      · cases heq
        exact ⟨hc, iff_of_false (by norm_num) hex, Or.inr rfl⟩

end OpponentCache


namespace OpponentCache

unseal Rat.add Rat.sub Rat.mul Rat.inv in
/-- Witness for the amended C6: on a one-profile cache the CLI search
returns the exact match with relevance 1, substring-matching and bounded by
the limit. -/
theorem C6_witness :
    (giaHallMatch ∈ OpponentLookup.search_opponents giaHallCache "Gia Hall" 10) ∧
    (strContains (pyUpper giaHallMatch.name) (pyUpper "Gia Hall") = true ∧
      (giaHallMatch.relevance = 1 ↔ pyUpper giaHallMatch.name = pyUpper "Gia Hall") ∧
      (giaHallMatch.relevance = 1 ∨ giaHallMatch.relevance = 1/2)) := by
  have hm : giaHallMatch ∈ OpponentLookup.search_opponents giaHallCache "Gia Hall" 10 := by
    decide
  exact ⟨hm, (C6_search_amended.2 giaHallCache "Gia Hall" 10).2.2 _ hm⟩

end OpponentCache
